import Mathlib

/-!
# Verification of mtx-stream-snap (`snapfeeder.py`)

A shallow embedding of the snapshot server in `src/snapfeeder.py`
(with its near-duplicate `src/scripts/snapfeeder.py`):

* `CamState` mirrors the per-camera dict
  `{source, container, process, latest_frame, latest_jpeg}` (line 65-71).
* `serve_snapshot` mirrors the Flask view (lines 111-132), including the
  Python truthiness test `if cam['latest_jpeg']:` on line 124.
* `publish_frame` mirrors the two assignments in the demux loop
  (lines 104-105); for the concurrency analysis those two assignments are
  additionally split into separate atomic steps (`WriterStep`).
* `capture_iteration` / `capture_run` mirror the body of the
  `while True:` reconnect loop (lines 95-109), driven by an environment
  that says which frames the pipeline produced and how the streaming
  phase ended.
* `cleanup` mirrors the shutdown handler (lines 137-148).
* `parse_mediamtx_config` mirrors the config scan (lines 43-71) and
  `main_startup` the `__main__` block (lines 151-160).

Frames are opaque values, modelled as `Nat`; JPEG byte strings are
`List Nat`.  The external JPEG encoder (`frame.to_ndarray` composed with
`JPEG_ENCODER.encode`, line 128) is a parameter
`E : Frame → Except String Bytes`, an `Except.error` being a raised
exception caught on line 131.
-/

namespace Snapfeeder

/-- Opaque decoded-frame values (`cam['latest_frame']`). -/
abbrev Frame := Nat

/-- JPEG byte strings (`jpeg_buf`). -/
abbrev Bytes := List Nat

/-- Per-camera state: the dict built on lines 65-71 of `snapfeeder.py`.
`container` and `process` hold opaque resource identifiers of the PyAV
container and the ffmpeg subprocess. -/
structure CamState where
  source : String
  container : Option Nat
  process : Option Nat
  latest_frame : Option Frame
  latest_jpeg : Option Bytes
  deriving Repr, DecidableEq

/-- The global `CAMERAS` dict (line 39), as an association list in
insertion order. -/
abbrev Cameras := List (String × CamState)

/-- Python dict lookup, `CAMERAS.get(name)`. -/
def lookupCam (cams : Cameras) (name : String) : Option CamState :=
  match cams with
  | [] => none
  | (n, c) :: rest => if n = name then some c else lookupCam rest name

/-- In-place mutation of one camera's entry (`cam['field'] = ...` mutates
the dict value stored under `name`). -/
def updateCam (cams : Cameras) (name : String) (f : CamState → CamState) :
    Cameras :=
  match cams with
  | [] => []
  | (n, c) :: rest =>
      if n = name then (n, f c) :: rest else (n, c) :: updateCam rest name f

/-- Python truthiness of `cam['latest_jpeg']` (line 124): `None` and the
empty byte string are falsy. -/
def jpegTruthy : Option Bytes → Bool
  | none => false
  | some b => !b.isEmpty

/-- Result of one request to the snapshot endpoint (lines 111-132):
`notFound` is the 404 branch, `notReady` the 503 branch, `cacheHit` the
`send_file` of the cached bytes on line 125, `encoded` the `send_file`
of freshly encoded bytes on line 130, and `encodingError` the 500 branch
on line 132. -/
inductive SnapResult where
  | notFound
  | notReady
  | cacheHit (b : Bytes)
  | encoded (b : Bytes)
  | encodingError (msg : String)
  deriving Repr, DecidableEq

/-- The HTTP status code each `SnapResult` is served with. -/
def SnapResult.status : SnapResult → Nat
  | .notFound => 404
  | .notReady => 503
  | .cacheHit _ => 200
  | .encoded _ => 200
  | .encodingError _ => 500

/-- The view `serve_snapshot(name)` (lines 111-132).  Returns the response and the
updated `CAMERAS` state (the encode path writes `cam['latest_jpeg']` on
line 129; every other path leaves the state untouched). -/
def serve_snapshot (E : Frame → Except String Bytes) (cams : Cameras)
    (name : String) : SnapResult × Cameras :=
  match lookupCam cams name with
  | none => (.notFound, cams)
  | some cam =>
    match cam.latest_frame with
    | none => (.notReady, cams)
    | some frame =>
      if jpegTruthy cam.latest_jpeg then
        (.cacheHit (cam.latest_jpeg.getD []), cams)
      else
        match E frame with
        | .ok buf =>
            (.encoded buf,
             updateCam cams name (fun c => { c with latest_jpeg := some buf }))
        | .error m => (.encodingError m, cams)

/-- The effect on one camera of the two assignments performed by the
demux loop for each decoded frame (lines 104-105), taken as one
sequential unit: `cam['latest_frame'] = frame; cam['latest_jpeg'] = None`. -/
def publishCam (c : CamState) (f : Frame) : CamState :=
  { c with latest_frame := some f, latest_jpeg := none }

/-- Publication of a new frame for camera `name` (lines 104-105), as one
sequential unit. -/
def publish_frame (cams : Cameras) (name : String) (f : Frame) : Cameras :=
  updateCam cams name (fun c => publishCam c f)

/-! ### The publish at instruction granularity

Lines 104 and 105 are two separate statements executed by the capture
thread while Flask request handlers may run `serve_snapshot`
concurrently; under the CPython GIL each single dict-item assignment is
atomic, but thread switches can occur between the two statements.
`WriterStep` models the individual assignments. -/

/-- One atomic assignment of the publish sequence. -/
inductive WriterStep where
  | setLatestFrame (f : Frame)
  | clearLatestJpeg
  deriving Repr, DecidableEq

/-- Effect of a single assignment on the camera's dict. -/
def applyWriterStep (c : CamState) : WriterStep → CamState
  | .setLatestFrame f => { c with latest_frame := some f }
  | .clearLatestJpeg => { c with latest_jpeg := none }

/-- The publish of frame `f` is the sequence of the two assignments on
lines 104-105, in program order. -/
def publishSteps (f : Frame) : List WriterStep :=
  [.setLatestFrame f, .clearLatestJpeg]

/-! ## Capture loop (lines 73-109)

One iteration of the `while True:` loop opens a fresh pipeline
(`subprocess.Popen` + `av.open`, lines 97-100), then runs the demux loop
(lines 102-105) publishing each decoded frame, until the streaming phase
ends.  The environment drives each iteration with an `IterOutcome`:
the frames the pipeline yielded, and how the iteration's `try:` body
ended — by the demux iterator becoming exhausted (no exception raised),
or by an exception. -/

/-- How a raised Python exception is classified by the two `except`
clauses on lines 106-109: `av.AVError` or any other `Exception`. -/
inductive ExnKind where
  | avError
  | otherException
  deriving Repr, DecidableEq

/-- How one iteration of the `while True:` body ends. -/
inductive IterEnd where
  | streamExhausted
  | raised (k : ExnKind)
  deriving Repr, DecidableEq

/-- Environment-chosen outcome of one connection attempt: the decoded
frames delivered by the demux loop (in order), then how the `try:` body
ended. -/
structure IterOutcome where
  frames : List Frame
  ended : IterEnd
  deriving Repr, DecidableEq

/-- The `except` clauses (lines 106-109): which exception kinds are
caught, and how many seconds the handler sleeps.  `none` would mean the
exception escapes the loop and kills the worker thread; both clauses
execute `time.sleep(5)`. -/
def except_handler : ExnKind → Option Nat
  | .avError => some 5
  | .otherException => some 5

/-- Resource ledger for one worker: which pipeline resources
(ffmpeg process + PyAV container pairs) it ever created, and which it
explicitly released (terminated / closed).  The capture loop contains no
release call, so only `cleanup` ever releases anything. -/
structure ResLedger where
  nextId : Nat
  opened : List Nat
  released : List Nat
  deriving Repr, DecidableEq

/-- One iteration of the `while True:` body (lines 95-109) acting on the
camera's state and the worker's resource ledger.  Returns the new state,
the ledger, the seconds slept before the next connection attempt, and
whether the worker thread is still alive afterwards.

Lines 97-100 allocate a fresh pipeline resource and overwrite
`cam['process']` / `cam['container']` — no release of any previous
resource happens anywhere in the loop.  Lines 102-105 publish each
frame.  An exhausted demux iterator ends the `try:` body normally and
the loop re-enters immediately (no sleep); a raised exception reaches an
`except` clause, which sleeps 5 seconds. -/
def capture_iteration (st : CamState) (led : ResLedger) (o : IterOutcome) :
    CamState × ResLedger × Nat × Bool :=
  let pid := led.nextId
  let led' : ResLedger :=
    { nextId := pid + 1, opened := led.opened ++ [pid],
      released := led.released }
  let st' : CamState := { st with process := some pid, container := some pid }
  let st'' := o.frames.foldl
    (fun s f => { s with latest_frame := some f, latest_jpeg := none }) st'
  match o.ended with
  | .streamExhausted => (st'', led', 0, true)
  | .raised k =>
      match except_handler k with
      | some d => (st'', led', d, true)
      | none => (st'', led', 0, false)

/-- Running the capture loop through a finite prefix of iteration
outcomes.  Returns the final camera state and ledger, and the list of
sleeps performed after each completed iteration; the loop stops early
only if an iteration leaves the worker dead (an uncaught exception). -/
def capture_run (st : CamState) (led : ResLedger) :
    List IterOutcome → CamState × ResLedger × List Nat
  | [] => (st, led, [])
  | o :: os =>
      let (st', led', d, alive) := capture_iteration st led o
      if alive then
        let (st'', led'', ds) := capture_run st' led' os
        (st'', led'', d :: ds)
      else
        (st', led', [d])

/-! ## Shutdown (`cleanup`, lines 137-148) -/

/-- Process-level actions issued by `cleanup`: `proc.send_signal(SIGTERM)`,
`proc.wait(timeout=2)`, `proc.kill()`. -/
inductive CleanupAction where
  | sigterm (pid : Nat)
  | waitFor (pid : Nat) (timeoutSecs : Nat)
  | kill (pid : Nat)
  deriving Repr, DecidableEq

/-- The loop body of `cleanup()` for one camera (lines 141-148): if
`cam['process']` is set, send SIGTERM, wait up to 2 seconds, and kill
the process if `proc.wait` raised `TimeoutExpired`.  `exits pid` says
whether process `pid` exits within the 2-second wait after SIGTERM
(environment behaviour). -/
def cleanup_cam (exits : Nat → Bool) (cam : CamState) : List CleanupAction :=
  match cam.process with
  | none => []
  | some pid =>
      [.sigterm pid, .waitFor pid 2] ++
      (if exits pid then [] else [.kill pid])

/-- The handler `cleanup()` (lines 137-148): the loop body applied to every camera. -/
def cleanup (cams : Cameras) (exits : Nat → Bool) : List CleanupAction :=
  cams.flatMap (fun nc => cleanup_cam exits nc.2)

/-! ## Config parsing (`parse_mediamtx_config`, lines 43-71) -/

/-- A value of the YAML `paths` mapping: either a nested mapping (a
Python `dict`, possibly lacking `source` or `runOnInit`), or any
non-mapping value (skipped by the `isinstance(entry, dict)` check on
line 57).  `runOnInit` is kept as a character list so the regex search
can be modelled. -/
inductive PathEntry where
  | mapping (source : Option String) (runOnInit : Option (List Char))
  | nonMapping
  deriving Repr, DecidableEq

/-- Python `\s` on the ASCII range (the `[^\s\'"]` character class of the
regex on line 62; Unicode whitespace beyond ASCII is abstracted away). -/
def isPySpace (c : Char) : Bool :=
  c = ' ' || c = '\t' || c = '\n' || c = '\r' || c = '\x0b' || c = '\x0c'

/-- A character matched by `[^\s\'"]` in the regex `rtsp://[^\s\'"]+`. -/
def isRtspBodyChar (c : Char) : Bool :=
  !(isPySpace c || c = '\'' || c = '"')

/-- The literal head of the regex pattern. -/
def rtspLit : List Char := "rtsp://".toList

/-- The search `re.search` with pattern `rtsp://[^\s\'"]+` over `run_init`
(line 62): scan left to
right; at the first position where the literal `rtsp://` is followed by
at least one `[^\s\'"]` character, return the match — the literal plus
the maximal (greedy `+`) run of such characters. -/
def reSearchRtsp : List Char → Option (List Char)
  | [] => none
  | c :: rest =>
      let s := c :: rest
      if s.take 7 = rtspLit ∧ (s.drop 7).takeWhile isRtspBodyChar ≠ [] then
        some (rtspLit ++ (s.drop 7).takeWhile isRtspBodyChar)
      else
        reSearchRtsp rest

/-- A fresh camera record as inserted on lines 65-71. -/
def freshCam (url : List Char) : CamState :=
  { source := String.mk url, container := none, process := none,
    latest_frame := none, latest_jpeg := none }

/-- The per-entry body of the `for name, entry in paths.items():` loop
(lines 56-71): skip non-mappings, skip entries whose `source` is not
`'publisher'`, read `runOnInit` with default `''`, and register the
camera iff the regex finds an RTSP URL. -/
def acceptEntry : PathEntry → Option (List Char)
  | .nonMapping => none
  | .mapping src runInit =>
      if src = some "publisher" then
        reSearchRtsp (runInit.getD [])
      else
        none

/-- The function `parse_mediamtx_config()` (lines 43-71), applied to the already
loaded `paths` mapping given as key-value pairs in document order:
populates `CAMERAS` in iteration order (accepted entries appear in the
same relative order as in `paths`). -/
def parse_mediamtx_config : List (String × PathEntry) → Cameras
  | [] => []
  | (n, e) :: rest =>
      match acceptEntry e with
      | some url => (n, freshCam url) :: parse_mediamtx_config rest
      | none => parse_mediamtx_config rest

/-- Lookup over `paths.items()`, used to state which entry a name denotes. -/
def lookupPath (paths : List (String × PathEntry)) (name : String) :
    Option PathEntry :=
  match paths with
  | [] => none
  | (n, e) :: rest => if n = name then some e else lookupPath rest name

/-! ## YAML loading and startup (`__main__`, lines 151-160)

`yaml.load` is `ruamel.yaml.YAML()` in its default round-trip mode
(lines 51-53), whose documented default `allow_duplicate_keys = False`
raises `DuplicateKeyError` when a mapping in the document repeats a key
— in particular when two `paths` entries share a camera name.  The raw
document's `paths` block is modelled as the list of its key-value pairs
in document order. -/

/-- The call `yaml.load(f)` restricted to the `paths` block: rejects duplicate
keys (ruamel.yaml `DuplicateKeyError` under the default
`allow_duplicate_keys = False`), otherwise yields the mapping. -/
def yaml_load_paths (raw : List (String × PathEntry)) :
    Except String (List (String × PathEntry)) :=
  if (raw.map Prod.fst).Nodup then .ok raw else .error "DuplicateKeyError"

/-- Outcome of the `__main__` block (lines 151-160): any exception from
config loading is caught and aborts startup (line 154-156; the handler
prints `Config error` and exits with status 1), an empty camera set
aborts startup (lines 158-160), otherwise the capture threads and the
Flask server start. -/
inductive StartupResult where
  | abortConfigError (msg : String)
  | abortNoCameras
  | started (cams : Cameras)
  deriving Repr, DecidableEq

/-- The `__main__` block (lines 151-160) up to starting the server. -/
def main_startup (raw : List (String × PathEntry)) : StartupResult :=
  match yaml_load_paths raw with
  | .error e => .abortConfigError e
  | .ok paths =>
      let cams := parse_mediamtx_config paths
      if cams.isEmpty then .abortNoCameras else .started cams

/-! ## Sequential system view

The per-camera interactions of the running service, at the granularity
at which the functional (non-concurrency) claims are stated: a publish
(lines 104-105, as one unit) or a snapshot request (lines 111-132). -/

/-- One sequential operation on the camera table. -/
inductive SeqOp where
  | publish (name : String) (f : Frame)
  | getSnapshot (name : String)
  deriving Repr, DecidableEq

/-- Effect of one operation on the camera table. -/
def runOp (E : Frame → Except String Bytes) (cams : Cameras) :
    SeqOp → Cameras
  | .publish name f => publish_frame cams name f
  | .getSnapshot name => (serve_snapshot E cams name).2

/-- Effect of a sequence of operations, first to last. -/
def runOps (E : Frame → Except String Bytes) (cams : Cameras)
    (ops : List SeqOp) : Cameras :=
  ops.foldl (runOp E) cams

/-- Invariant: whenever a camera's `latest_jpeg` slot is populated, its
bytes are the encoder's output on that camera's current `latest_frame`
(the code keeps this by clearing `latest_jpeg` on line 105 whenever
`latest_frame` changes on line 104, and by writing `latest_jpeg` only on
line 129 right after encoding the current frame). -/
def jpegDerived (E : Frame → Except String Bytes) (cams : Cameras) : Prop :=
  ∀ name cam b, lookupCam cams name = some cam → cam.latest_jpeg = some b →
    ∃ f, cam.latest_frame = some f ∧ E f = Except.ok b

/-- A response that serves or attempts to encode bytes (as opposed to
the 404 and 503 early returns). -/
def SnapResult.isServing : SnapResult → Bool
  | .cacheHit _ => true
  | .encoded _ => true
  | .encodingError _ => true
  | .notFound => false
  | .notReady => false

/-- The seconds slept after one iteration of the reconnect loop,
as the spec-level summary of `capture_iteration`. -/
def expected_sleep (o : IterOutcome) : Nat :=
  match o.ended with
  | .streamExhausted => 0
  | .raised _ => 5

/-- The regex `rtsp://[^\s\'"]+` has a match starting at position `i` of
`s`: the literal `rtsp://` occupies positions `i..i+6` and at least one
`[^\s\'"]` character follows. -/
def matchAtPos (s : List Char) (i : Nat) : Prop :=
  (s.drop i).take 7 = rtspLit ∧
  (s.drop (i + 7)).takeWhile isRtspBodyChar ≠ []

instance (s : List Char) (i : Nat) : Decidable (matchAtPos s i) := by
  unfold matchAtPos
  infer_instance

/-! ## Concrete instances used by witnesses and counterexamples -/

/-- A concrete encoder that succeeds on every frame with a non-empty
JPEG byte string. -/
def EcOk : Frame → Except String Bytes := fun n => Except.ok [n + 1]

/-- A concrete encoder that always raises. -/
def EcFail : Frame → Except String Bytes := fun _ => Except.error "boom"

/-- A concrete `paths` mapping with one accepted publisher entry and one
skipped entry. -/
def pathsW : List (String × PathEntry) :=
  [("cam0", .mapping (some "publisher")
      (some ("ffmpeg -i rtsp://host:8554/cam0 x".toList))),
   ("skipme", .nonMapping)]

/-- The camera record obtained for `cam0` from `pathsW` after publishing
frame `3` and serving one snapshot under `EcOk`. -/
def camW : CamState :=
  { source := "rtsp://host:8554/cam0", container := none, process := none,
    latest_frame := some 3, latest_jpeg := some [4] }

/-- A camera that holds frame `0` and the cached bytes `[1]` encoded
from it (`EcOk 0 = .ok [1]`). -/
def camA : CamState :=
  { source := "rtsp://host:8554/cam0", container := none, process := none,
    latest_frame := some 0, latest_jpeg := some [1] }

/-- A one-camera table in the state `camA`. -/
def camsA : Cameras := [("cam0", camA)]

/-- State of `camA` after only the first of the two publish assignments for frame
`1` (line 104 executed, line 105 not yet): the new frame next to the
stale cached bytes. -/
def camMid : CamState :=
  { source := "rtsp://host:8554/cam0", container := none, process := none,
    latest_frame := some 1, latest_jpeg := some [1] }

/-- A camera with a decoded frame and an empty (`None`) encoding slot. -/
def camReady : CamState :=
  { source := "rtsp://host:8554/cam0", container := none, process := none,
    latest_frame := some 7, latest_jpeg := none }

/-- A camera with no decoded frame yet. -/
def camBare : CamState :=
  { source := "rtsp://host:8554/cam1", container := none, process := none,
    latest_frame := none, latest_jpeg := none }

/-- A two-camera table: one ready camera, one with no frame yet. -/
def camsW2 : Cameras := [("cam0", camReady), ("cam1", camBare)]

/-- A camera record with a live pipeline process id, for the shutdown
claims. -/
def camProc (pid : Nat) : CamState :=
  { source := "rtsp://host:8554/cam0", container := some pid,
    process := some pid, latest_frame := none, latest_jpeg := none }

/-- A fresh resource ledger. -/
def ledger0 : ResLedger := { nextId := 0, opened := [], released := [] }

/-- The RTSP URL the regex extracts from `pathsW`'s accepted entry. -/
def urlW : List Char := "rtsp://host:8554/cam0".toList

/-! ## Lemmas on the camera table -/

theorem lookupCam_updateCam_self (cams : Cameras) (name : String)
    (f : CamState → CamState) :
    lookupCam (updateCam cams name f) name = (lookupCam cams name).map f := by
  induction cams with
  | nil => rfl
  | cons hd tl ih =>
      obtain ⟨n, c⟩ := hd
      by_cases h : n = name
      · simp [updateCam, lookupCam, h]
      · simp [updateCam, lookupCam, h, ih]

theorem lookupCam_updateCam_ne (cams : Cameras) (name m : String)
    (f : CamState → CamState) (h : name ≠ m) :
    lookupCam (updateCam cams name f) m = lookupCam cams m := by
  induction cams with
  | nil => rfl
  | cons hd tl ih =>
      obtain ⟨n, c⟩ := hd
      by_cases hn : n = name
      · subst hn
        simp [updateCam, lookupCam, h, ih]
      · simp [updateCam, lookupCam, hn, ih]

/-! ## C2: status mapping of the snapshot endpoint -/

/-- C2: `GetSnapshot` returns `notFound` (served as HTTP 404) exactly
when the name is not a registered camera, `notReady` (HTTP 503) exactly
when the camera is registered but no frame has been decoded yet, and in
every other case it proceeds to serve or encode bytes. -/
theorem C2_status_mapping (E : Frame → Except String Bytes) (cams : Cameras)
    (name : String) :
    ((serve_snapshot E cams name).1 = .notFound ↔
      lookupCam cams name = none) ∧
    ((serve_snapshot E cams name).1 = .notReady ↔
      ∃ cam, lookupCam cams name = some cam ∧ cam.latest_frame = none) ∧
    ((serve_snapshot E cams name).1.status = 404 ↔
      lookupCam cams name = none) ∧
    ((serve_snapshot E cams name).1.status = 503 ↔
      ∃ cam, lookupCam cams name = some cam ∧ cam.latest_frame = none) ∧
    (∀ cam f, lookupCam cams name = some cam → cam.latest_frame = some f →
      ((serve_snapshot E cams name).1).isServing = true) := by
  rcases hl : lookupCam cams name with _ | cam
  · simp [serve_snapshot, hl, SnapResult.status, SnapResult.isServing]
  · rcases hf : cam.latest_frame with _ | fr
    · simp [serve_snapshot, hl, hf, SnapResult.status, SnapResult.isServing]
      rintro c fr rfl
      simp [hf]
    · by_cases hj : jpegTruthy cam.latest_jpeg
      · simp [serve_snapshot, hl, hf, hj, SnapResult.status,
          SnapResult.isServing]
      · rcases hE : E fr with m | b
        · simp [serve_snapshot, hl, hf, hj, hE, SnapResult.status,
            SnapResult.isServing]
        · simp [serve_snapshot, hl, hf, hj, hE, SnapResult.status,
            SnapResult.isServing]

/-- Witness for C2 at a concrete camera table. -/
theorem C2_status_mapping_witness :
    lookupCam camsW2 "cam0" = some camReady ∧
    camReady.latest_frame = some 7 ∧
    ((serve_snapshot EcOk camsW2 "cam0").1).isServing = true :=
  ⟨rfl, rfl,
    (C2_status_mapping EcOk camsW2 "cam0").2.2.2.2 camReady 7 rfl rfl⟩

/-! ## C3: cache-hit idempotence of repeated requests -/

/-- C3: if a `GetSnapshot` call returns bytes `b` (from the cache or
from a fresh encode) for a camera with a decoded frame, then a second
call with no intervening publish returns the byte-identical `b` via the
cache-hit branch (no second encode) and leaves the state unchanged. -/
theorem C3_second_call_cache_hit (E : Frame → Except String Bytes)
    (cams : Cameras) (name : String) (cam : CamState) (f : Frame) (b : Bytes)
    (hcam : lookupCam cams name = some cam)
    (hf : cam.latest_frame = some f)
    (hserve : (serve_snapshot E cams name).1 = .cacheHit b ∨
              (serve_snapshot E cams name).1 = .encoded b)
    (hb : b ≠ []) :
    serve_snapshot E (serve_snapshot E cams name).2 name
      = (.cacheHit b, (serve_snapshot E cams name).2) := by
  by_cases hj : jpegTruthy cam.latest_jpeg
  · rcases hjp : cam.latest_jpeg with _ | cb
    · rw [hjp] at hj
      simp [jpegTruthy] at hj
    · have hj2 : jpegTruthy (some cb) = true := by
        rw [hjp] at hj
        exact hj
      have h1 : serve_snapshot E cams name = (.cacheHit cb, cams) := by
        simp [serve_snapshot, hcam, hf, hjp, hj2]
      have hbeq : cb = b := by
        rcases hserve with h | h <;> rw [h1] at h <;> simpa using h
      subst hbeq
      rw [h1]
      simpa using h1
  · rcases hE : E f with m | buf
    · have h1 : serve_snapshot E cams name = (.encodingError m, cams) := by
        simp [serve_snapshot, hcam, hf, hj, hE]
      rcases hserve with h | h <;> rw [h1] at h <;> simp at h
    · have h1 : serve_snapshot E cams name
          = (.encoded buf,
             updateCam cams name (fun c => { c with latest_jpeg := some buf })) := by
        simp [serve_snapshot, hcam, hf, hj, hE]
      have hbeq : buf = b := by
        rcases hserve with h | h <;> rw [h1] at h <;> simpa using h
      subst hbeq
      rw [h1]
      have h2 : lookupCam
          (updateCam cams name (fun c => { c with latest_jpeg := some buf }))
          name = some { cam with latest_jpeg := some buf } := by
        rw [lookupCam_updateCam_self, hcam]
        rfl
      have hne : buf.isEmpty = false := by
        cases buf with
        | nil => exact absurd rfl hb
        | cons x xs => rfl
      simp [serve_snapshot, h2, hf, jpegTruthy, hne]

/-- Witness for C3: a fresh encode followed by a cache hit of the same
bytes. -/
theorem C3_second_call_cache_hit_witness :
    lookupCam [("cam0", camReady)] "cam0" = some camReady ∧
    camReady.latest_frame = some 7 ∧
    (serve_snapshot EcOk [("cam0", camReady)] "cam0").1 = .encoded [8] ∧
    serve_snapshot EcOk (serve_snapshot EcOk [("cam0", camReady)] "cam0").2
        "cam0"
      = (.cacheHit [8], (serve_snapshot EcOk [("cam0", camReady)] "cam0").2) :=
  ⟨rfl, rfl, rfl,
    C3_second_call_cache_hit EcOk [("cam0", camReady)] "cam0" camReady 7 [8]
      rfl rfl (Or.inr rfl) (by simp)⟩

/-! ## C4: encode failure is surfaced and changes nothing -/

/-- C4: when the snapshot encoder raises on the current frame, the
request returns `encodingError` (served as HTTP 500) and the whole
camera table — cached encodings, latest frames, and pipeline handles —
is exactly as before the call. -/
theorem C4_encode_failure_leaves_state (E : Frame → Except String Bytes)
    (cams : Cameras) (name : String) (cam : CamState) (f : Frame) (m : String)
    (hcam : lookupCam cams name = some cam)
    (hf : cam.latest_frame = some f)
    (hj : jpegTruthy cam.latest_jpeg = false)
    (hE : E f = .error m) :
    serve_snapshot E cams name = (.encodingError m, cams) := by
  simp [serve_snapshot, hcam, hf, hj, hE]

/-- Witness for C4 at a concrete failing encoder. -/
theorem C4_encode_failure_leaves_state_witness :
    lookupCam [("cam0", camReady)] "cam0" = some camReady ∧
    camReady.latest_frame = some 7 ∧
    jpegTruthy camReady.latest_jpeg = false ∧
    EcFail 7 = .error "boom" ∧
    serve_snapshot EcFail [("cam0", camReady)] "cam0"
      = (.encodingError "boom", [("cam0", camReady)]) :=
  ⟨rfl, rfl, rfl, rfl,
    C4_encode_failure_leaves_state EcFail [("cam0", camReady)] "cam0"
      camReady 7 "boom" rfl rfl rfl rfl⟩

/-! ## C1: the cache always tracks the latest frame -/

/-- Every camera produced by the config parser has an empty encoding
slot. -/
theorem lookupCam_parse_jpeg_none (paths : List (String × PathEntry))
    (name : String) (cam : CamState)
    (h : lookupCam (parse_mediamtx_config paths) name = some cam) :
    cam.latest_jpeg = none := by
  induction paths with
  | nil => simp [parse_mediamtx_config, lookupCam] at h
  | cons hd tl ih =>
      obtain ⟨n, e⟩ := hd
      rcases ha : acceptEntry e with _ | url
      · rw [parse_mediamtx_config, ha] at h
        exact ih h
      · rw [parse_mediamtx_config, ha] at h
        rw [lookupCam] at h
        by_cases hn : n = name
        · rw [if_pos hn] at h
          cases h
          rfl
        · rw [if_neg hn] at h
          exact ih h

/-- The parsed initial camera table satisfies `jpegDerived`. -/
theorem jpegDerived_parse (E : Frame → Except String Bytes)
    (paths : List (String × PathEntry)) :
    jpegDerived E (parse_mediamtx_config paths) := by
  intro name cam b hl hb
  rw [lookupCam_parse_jpeg_none paths name cam hl] at hb
  cases hb

/-- One publish or one request preserves `jpegDerived`. -/
theorem jpegDerived_runOp (E : Frame → Except String Bytes) (cams : Cameras)
    (op : SeqOp) (h : jpegDerived E cams) : jpegDerived E (runOp E cams op) := by
  cases op with
  | publish nm f =>
      intro name cam b hl hb
      have hrw : runOp E cams (SeqOp.publish nm f)
          = updateCam cams nm (fun c => publishCam c f) := rfl
      rw [hrw] at hl
      by_cases hn : nm = name
      · subst hn
        rw [lookupCam_updateCam_self] at hl
        rcases h0 : lookupCam cams nm with _ | c0
        · rw [h0] at hl
          cases hl
        · rw [h0] at hl
          simp only [Option.map_some'] at hl
          cases hl
          cases hb
      · rw [lookupCam_updateCam_ne _ _ _ _ hn] at hl
        exact h name cam b hl hb
  | getSnapshot nm =>
      intro name cam b hl hb
      rcases h0 : lookupCam cams nm with _ | c0
      · have hrw : runOp E cams (SeqOp.getSnapshot nm) = cams := by
          simp [runOp, serve_snapshot, h0]
        rw [hrw] at hl
        exact h name cam b hl hb
      · rcases hf0 : c0.latest_frame with _ | fr
        · have hrw : runOp E cams (SeqOp.getSnapshot nm) = cams := by
            simp [runOp, serve_snapshot, h0, hf0]
          rw [hrw] at hl
          exact h name cam b hl hb
        · by_cases hj0 : jpegTruthy c0.latest_jpeg
          · have hrw : runOp E cams (SeqOp.getSnapshot nm) = cams := by
              simp [runOp, serve_snapshot, h0, hf0, hj0]
            rw [hrw] at hl
            exact h name cam b hl hb
          · rcases hE0 : E fr with m | buf
            · have hrw : runOp E cams (SeqOp.getSnapshot nm) = cams := by
                simp [runOp, serve_snapshot, h0, hf0, hj0, hE0]
              rw [hrw] at hl
              exact h name cam b hl hb
            · have hrw : runOp E cams (SeqOp.getSnapshot nm)
                  = updateCam cams nm
                      (fun c => { c with latest_jpeg := some buf }) := by
                simp [runOp, serve_snapshot, h0, hf0, hj0, hE0]
              rw [hrw] at hl
              by_cases hn : nm = name
              · subst hn
                rw [lookupCam_updateCam_self, h0] at hl
                simp only [Option.map_some'] at hl
                cases hl
                cases hb
                exact ⟨fr, hf0, hE0⟩
              · rw [lookupCam_updateCam_ne _ _ _ _ hn] at hl
                exact h name cam b hl hb

/-- Any sequence of publishes and requests preserves `jpegDerived`. -/
theorem jpegDerived_runOps (E : Frame → Except String Bytes) (cams : Cameras)
    (ops : List SeqOp) (h : jpegDerived E cams) :
    jpegDerived E (runOps E cams ops) := by
  induction ops generalizing cams with
  | nil => exact h
  | cons op ops ih => exact ih _ (jpegDerived_runOp E cams op h)

/-- C1: in any state reachable from a parsed configuration by publishes
and requests, cached bytes are always the encoding of the camera's
current latest frame; and after a further publish while an older cached
encoding exists, the next request takes the encode path (its outcome is
exactly the encoder's verdict on the new frame) and never serves from
the cache. -/
theorem C1_cache_tracks_latest_frame (E : Frame → Except String Bytes)
    (paths : List (String × PathEntry)) (ops : List SeqOp) (name : String)
    (cam : CamState) (b : Bytes) (f : Frame)
    (hcam : lookupCam (runOps E (parse_mediamtx_config paths) ops) name
      = some cam)
    (hjpeg : cam.latest_jpeg = some b) :
    (∃ fr, cam.latest_frame = some fr ∧ E fr = Except.ok b) ∧
    ((serve_snapshot E
        (publish_frame (runOps E (parse_mediamtx_config paths) ops) name f)
        name).1
      = match E f with
        | .ok buf => .encoded buf
        | .error m => .encodingError m) ∧
    (∀ c, (serve_snapshot E
        (publish_frame (runOps E (parse_mediamtx_config paths) ops) name f)
        name).1 ≠ .cacheHit c) := by
  have hl2 : lookupCam
      (publish_frame (runOps E (parse_mediamtx_config paths) ops) name f) name
      = some (publishCam cam f) := by
    rw [publish_frame, lookupCam_updateCam_self, hcam]
    rfl
  have hmain : (serve_snapshot E
      (publish_frame (runOps E (parse_mediamtx_config paths) ops) name f)
      name).1
      = match E f with
        | .ok buf => .encoded buf
        | .error m => .encodingError m := by
    rcases hE : E f with m | buf
    · simp [serve_snapshot, hl2, publishCam, jpegTruthy, hE]
    · simp [serve_snapshot, hl2, publishCam, jpegTruthy, hE]
  refine ⟨jpegDerived_runOps E _ ops (jpegDerived_parse E paths)
    name cam b hcam hjpeg, hmain, ?_⟩
  intro c hc
  rw [hmain] at hc
  rcases hE : E f with m | buf <;> rw [hE] at hc <;> cases hc

/-- Witness for C1: after publishing frame `3` and serving once, the
cached bytes are the encoding of the current frame. -/
theorem C1_cache_tracks_latest_frame_witness :
    lookupCam (runOps EcOk (parse_mediamtx_config pathsW)
        [SeqOp.publish "cam0" 3, SeqOp.getSnapshot "cam0"]) "cam0"
      = some camW ∧
    camW.latest_jpeg = some [4] ∧
    (∃ fr, camW.latest_frame = some fr ∧ EcOk fr = Except.ok [4]) :=
  ⟨rfl, rfl,
    (C1_cache_tracks_latest_frame EcOk pathsW
      [SeqOp.publish "cam0" 3, SeqOp.getSnapshot "cam0"] "cam0" camW [4] 5
      rfl rfl).1⟩

/-! ## C5: reconnect behaviour of the capture loop -/

/-- C5 counterexample: when the streaming phase ends by the demux
iterator becoming exhausted (end-of-stream without an exception), the
`try:` body completes normally and the `while True:` loop re-enters at
once — the worker sleeps `0` seconds, not the fixed 5-second delay the
claim requires for every end of the streaming phase. -/
theorem C5_counterexample :
    (capture_iteration camReady ledger0 ⟨[], IterEnd.streamExhausted⟩).2.2.1
      = 0 ∧
    (capture_iteration camReady ledger0 ⟨[], IterEnd.streamExhausted⟩).2.2.2
      = true ∧
    (capture_run camReady ledger0 [⟨[], IterEnd.streamExhausted⟩,
        ⟨[], IterEnd.raised ExnKind.avError⟩]).2.2 = [0, 5] ∧
    (0 : Nat) ≠ 5 := by
  refine ⟨rfl, rfl, rfl, by decide⟩

/-- C5 amended: the worker retries without bound and never terminates —
`capture_run` performs every attempt offered by the environment, both
exception kinds are caught, and the sleep before the next attempt is the
fixed 5 seconds exactly when the streaming phase ended with an
exception; when the demux iterator is exhausted without an exception the
worker reconnects immediately with no delay. -/
theorem C5_retries_unbounded (st : CamState) (led : ResLedger)
    (os : List IterOutcome) :
    (capture_run st led os).2.2 = os.map expected_sleep := by
  induction os generalizing st led with
  | nil => rfl
  | cons o os ih =>
      rcases o with ⟨fs, e⟩
      cases e with
      | streamExhausted =>
          simp [capture_run, capture_iteration, expected_sleep, ih]
      | raised k =>
          cases k <;>
            simp [capture_run, capture_iteration, except_handler,
              expected_sleep, ih]

/-! ## C6: pipeline resources across retries -/

/-- C6 counterexample: two consecutive failed attempts.  The first
attempt opens pipeline `0`; the second attempt opens pipeline `1` while
the worker has released nothing (`released = []`), so the previously
opened pipeline was not released before the new one was created. -/
theorem C6_counterexample :
    ((capture_run camReady ledger0
        [⟨[], IterEnd.raised ExnKind.avError⟩,
         ⟨[], IterEnd.raised ExnKind.avError⟩]).2.1).opened = [0, 1] ∧
    ((capture_run camReady ledger0
        [⟨[], IterEnd.raised ExnKind.avError⟩,
         ⟨[], IterEnd.raised ExnKind.avError⟩]).2.1).released = [] := by
  exact ⟨rfl, rfl⟩

/-- C6 amended: the capture loop itself never releases any pipeline
resource — across any run the set of resources it has explicitly
released is unchanged, while every completed attempt creates one more
pipeline (the new handle merely overwrites `cam['process']` and
`cam['container']`). -/
theorem C6_no_release_across_retries (st : CamState) (led : ResLedger)
    (os : List IterOutcome) :
    ((capture_run st led os).2.1).released = led.released ∧
    ((capture_run st led os).2.1).opened.length
      = led.opened.length + ((capture_run st led os).2.2).length := by
  induction os generalizing st led with
  | nil => simp [capture_run]
  | cons o os ih =>
      rcases o with ⟨fs, e⟩
      have hA : ∀ s l, (capture_run s l os).2.1.released = l.released :=
        fun s l => (ih s l).1
      have hB : ∀ s l, (capture_run s l os).2.1.opened.length
          = l.opened.length + (capture_run s l os).2.2.length :=
        fun s l => (ih s l).2
      cases e with
      | streamExhausted =>
          refine ⟨?_, ?_⟩
          · simp [capture_run, capture_iteration]
            rw [hA]
          · simp [capture_run, capture_iteration]
            rw [hB]
            simp
            ac_rfl
      | raised k =>
          cases k <;> refine ⟨?_, ?_⟩ <;>
            simp [capture_run, capture_iteration, except_handler]
          all_goals first
            | rw [hA]
            | (rw [hB]; simp; ac_rfl)

/-! ## C7: bounded shutdown -/

/-- C7: for every camera whose pipeline process exists, `cleanup`
requests graceful termination (SIGTERM), waits at most the bounded
2-second timeout, and force-kills the process exactly when it is still
alive after the timeout; this happens for every such camera, so
shutdown proceeds regardless of unresponsive pipelines. -/
theorem C7_shutdown_releases_all (cams : Cameras) (exits : Nat → Bool)
    (name : String) (cam : CamState) (pid : Nat)
    (hmem : (name, cam) ∈ cams) (hpid : cam.process = some pid) :
    cleanup_cam exits cam
      = [CleanupAction.sigterm pid, CleanupAction.waitFor pid 2]
        ++ (if exits pid then [] else [CleanupAction.kill pid]) ∧
    CleanupAction.sigterm pid ∈ cleanup cams exits ∧
    CleanupAction.waitFor pid 2 ∈ cleanup cams exits ∧
    (exits pid = false → CleanupAction.kill pid ∈ cleanup cams exits) := by
  have hc : cleanup_cam exits cam
      = [CleanupAction.sigterm pid, CleanupAction.waitFor pid 2]
        ++ (if exits pid then [] else [CleanupAction.kill pid]) := by
    simp [cleanup_cam, hpid]
  refine ⟨hc, ?_, ?_, ?_⟩
  · exact List.mem_flatMap.mpr ⟨(name, cam), hmem, by rw [hc]; simp⟩
  · exact List.mem_flatMap.mpr ⟨(name, cam), hmem, by rw [hc]; simp⟩
  · intro hex
    exact List.mem_flatMap.mpr ⟨(name, cam), hmem, by rw [hc]; simp [hex]⟩

/-- Witness for C7: a camera whose process ignores SIGTERM is killed. -/
theorem C7_shutdown_releases_all_witness :
    ("cam0", camProc 9) ∈ [("cam0", camProc 9)] ∧
    (camProc 9).process = some 9 ∧
    CleanupAction.kill 9 ∈ cleanup [("cam0", camProc 9)] (fun _ => false) :=
  ⟨List.mem_singleton.mpr rfl, rfl,
    (C7_shutdown_releases_all [("cam0", camProc 9)] (fun _ => false) "cam0"
      (camProc 9) 9 (List.mem_singleton.mpr rfl) rfl).2.2.2 rfl⟩

/-! ## C8: duplicate camera names abort startup -/

/-- C8: a configuration whose `paths` block contains two entries with
the same name is rejected while loading (`ruamel.yaml` raises
`DuplicateKeyError` under its default `allow_duplicate_keys = False`),
the `__main__` handler turns this into a config-error abort, and such a
configuration never results in a running service. -/
theorem C8_duplicate_names_abort (pre mid post : List (String × PathEntry))
    (n : String) (e1 e2 : PathEntry) :
    main_startup (pre ++ (n, e1) :: mid ++ (n, e2) :: post)
      = .abortConfigError "DuplicateKeyError" ∧
    ∀ cams, main_startup (pre ++ (n, e1) :: mid ++ (n, e2) :: post)
      ≠ .started cams := by
  have hcount : 2 ≤
      (((pre ++ (n, e1) :: mid ++ (n, e2) :: post).map Prod.fst).count n) := by
    simp only [List.map_append, List.map_cons, List.count_append,
      List.count_cons_self]
    omega
  have hdup :
      ¬ ((pre ++ (n, e1) :: mid ++ (n, e2) :: post).map Prod.fst).Nodup := by
    intro hnd
    have h1 := List.nodup_iff_count_le_one.mp hnd n
    omega
  have hload : yaml_load_paths (pre ++ (n, e1) :: mid ++ (n, e2) :: post)
      = .error "DuplicateKeyError" := by
    rw [yaml_load_paths, if_neg hdup]
  have hmain : main_startup (pre ++ (n, e1) :: mid ++ (n, e2) :: post)
      = .abortConfigError "DuplicateKeyError" := by
    unfold main_startup
    rw [hload]
  refine ⟨hmain, ?_⟩
  intro cams h
  rw [hmain] at h
  cases h

/-- Witness for C8 at a two-entry configuration repeating one name. -/
theorem C8_duplicate_names_abort_witness :
    main_startup [("a", PathEntry.nonMapping), ("a", PathEntry.nonMapping)]
      = .abortConfigError "DuplicateKeyError" :=
  (C8_duplicate_names_abort [] [] [] "a" .nonMapping .nonMapping).1

/-! ## C9: publication is not observed atomically -/

/-- C9 counterexample: a reader scheduled between the two publish
assignments observes a torn pair.  Starting from `camA` (frame `0`
cached as bytes `[1] = EcOk 0`), the capture thread executes only the
first assignment of the publish of frame `1` (line 104), reaching
`camMid`; a request served at that instant observes the new latest
frame `1` together with the cached bytes `[1]`, which are not the
encoding `[2]` of frame `1` — the frame and its freshness/cache state
are read torn. -/
theorem C9_counterexample :
    updateCam camsA "cam0"
        (fun c => ((publishSteps 1).take 1).foldl applyWriterStep c)
      = [("cam0", camMid)] ∧
    (serve_snapshot EcOk [("cam0", camMid)] "cam0").1 = .cacheHit [1] ∧
    camMid.latest_frame = some 1 ∧
    EcOk 1 = Except.ok [2] ∧
    ([1] : Bytes) ≠ [2] := by
  refine ⟨rfl, rfl, rfl, rfl, by decide⟩

/-- C9 amended: each of the two publish assignments is individually
atomic, and once both have executed the camera shows the consistent
pair (new frame, cleared cache) — the combined effect is exactly the
sequential `publishCam`; but after only the first assignment the camera
pairs the new frame with the previous cached encoding, so the
`(frame, freshness)` pair is not published as one atomic unit. -/
theorem C9_publish_not_atomic (st : CamState) (f : Frame) (b : Bytes)
    (hb : st.latest_jpeg = some b) :
    ((publishSteps f).foldl applyWriterStep st).latest_frame = some f ∧
    ((publishSteps f).foldl applyWriterStep st).latest_jpeg = none ∧
    (publishSteps f).foldl applyWriterStep st = publishCam st f ∧
    (((publishSteps f).take 1).foldl applyWriterStep st).latest_frame
      = some f ∧
    (((publishSteps f).take 1).foldl applyWriterStep st).latest_jpeg
      = some b := by
  exact ⟨rfl, rfl, rfl, rfl, hb⟩

/-- Witness for the amended C9 at the concrete camera `camA`. -/
theorem C9_publish_not_atomic_witness :
    camA.latest_jpeg = some [1] ∧
    (((publishSteps 1).take 1).foldl applyWriterStep camA).latest_frame
      = some 1 ∧
    (((publishSteps 1).take 1).foldl applyWriterStep camA).latest_jpeg
      = some [1] :=
  ⟨rfl, (C9_publish_not_atomic camA 1 [1] rfl).2.2.2.1,
    (C9_publish_not_atomic camA 1 [1] rfl).2.2.2.2⟩

/-! ## C10: exact registration criterion of the config parser -/

/-- Matching at position `0` is the test performed by
`reSearchRtsp` at the head of the list. -/
theorem matchAtPos_zero (s : List Char) :
    matchAtPos s 0 ↔
      (s.take 7 = rtspLit ∧ (s.drop 7).takeWhile isRtspBodyChar ≠ []) := by
  simp [matchAtPos]

/-- Shifting a match position across the head of the list. -/
theorem matchAtPos_succ (c : Char) (s : List Char) (i : Nat) :
    matchAtPos (c :: s) (i + 1) ↔ matchAtPos s i := by
  unfold matchAtPos
  have h1 : List.drop (i + 1) (c :: s) = List.drop i s := rfl
  have h2 : List.drop (i + 1 + 7) (c :: s) = List.drop (i + 7) s := by
    have h3 : i + 1 + 7 = (i + 7) + 1 := by omega
    rw [h3]
    rfl
  rw [h1, h2]

/-- The scan `reSearchRtsp` finds exactly the leftmost position where the regex
matches, and returns the literal `rtsp://` followed by the maximal run
of `[^\s\'"]` characters after it (greedy `+`). -/
theorem reSearchRtsp_first_match (s r : List Char) :
    reSearchRtsp s = some r ↔
      ∃ i, matchAtPos s i ∧ (∀ j, j < i → ¬ matchAtPos s j) ∧
        r = rtspLit ++ ((s.drop (i + 7)).takeWhile isRtspBodyChar) := by
  induction s generalizing r with
  | nil =>
      constructor
      · intro h
        cases h
      · rintro ⟨i, hm, -, -⟩
        have : (List.drop i ([] : List Char)).take 7 = rtspLit := hm.1
        simp [rtspLit] at this
  | cons c rest ih =>
      by_cases h0 : matchAtPos (c :: rest) 0
      · have hcond : (c :: rest).take 7 = rtspLit ∧
            ((c :: rest).drop 7).takeWhile isRtspBodyChar ≠ [] :=
          (matchAtPos_zero _).mp h0
        constructor
        · intro h
          rw [reSearchRtsp, if_pos hcond] at h
          refine ⟨0, h0, fun j hj => absurd hj (Nat.not_lt_zero j), ?_⟩
          cases h
          rfl
        · rintro ⟨i, hm, hmin, hr⟩
          have hi : i = 0 := by
            by_contra hne
            exact hmin 0 (Nat.pos_of_ne_zero hne) h0
          subst hi
          rw [reSearchRtsp, if_pos hcond, hr]
      · have hcond : ¬ ((c :: rest).take 7 = rtspLit ∧
            ((c :: rest).drop 7).takeWhile isRtspBodyChar ≠ []) :=
          fun hc => h0 ((matchAtPos_zero _).mpr hc)
        rw [reSearchRtsp, if_neg hcond, ih]
        constructor
        · rintro ⟨i, hm, hmin, hr⟩
          refine ⟨i + 1, (matchAtPos_succ c rest i).mpr hm, ?_, ?_⟩
          · intro j hj
            cases j with
            | zero => exact h0
            | succ j2 =>
                intro hmj
                exact hmin j2 (by omega) ((matchAtPos_succ c rest j2).mp hmj)
          · rw [hr]
            have h3 : i + 1 + 7 = (i + 7) + 1 := by omega
            rw [h3]
            rfl
        · rintro ⟨i, hm, hmin, hr⟩
          cases i with
          | zero => exact absurd hm h0
          | succ i2 =>
              refine ⟨i2, (matchAtPos_succ c rest i2).mp hm, ?_, ?_⟩
              · intro j hj hmj
                exact hmin (j + 1) (by omega)
                  ((matchAtPos_succ c rest j).mpr hmj)
              · rw [hr]
                have h3 : i2 + 1 + 7 = (i2 + 7) + 1 := by omega
                rw [h3]
                rfl

/-- A name absent from `paths` is absent from the parsed camera table. -/
theorem lookupCam_parse_not_mem (paths : List (String × PathEntry))
    (name : String) (h : name ∉ paths.map Prod.fst) :
    lookupCam (parse_mediamtx_config paths) name = none := by
  induction paths with
  | nil => rfl
  | cons hd tl ih =>
      obtain ⟨n, e⟩ := hd
      simp only [List.map_cons, List.mem_cons] at h
      push_neg at h
      rcases ha : acceptEntry e with _ | url
      · rw [parse_mediamtx_config, ha]
        exact ih h.2
      · rw [parse_mediamtx_config, ha, lookupCam,
          if_neg (fun hn => h.1 hn.symm)]
        exact ih h.2

/-- With unique path names (guaranteed because the YAML `paths` block is
a Python dict), the parsed camera table is the pointwise image of the
per-entry acceptance decision. -/
theorem lookupCam_parse (paths : List (String × PathEntry)) (name : String)
    (hnodup : (paths.map Prod.fst).Nodup) :
    lookupCam (parse_mediamtx_config paths) name
      = (lookupPath paths name).bind
          (fun e => (acceptEntry e).map (fun url => freshCam url)) := by
  induction paths with
  | nil => rfl
  | cons hd tl ih =>
      obtain ⟨n, e⟩ := hd
      simp only [List.map_cons, List.nodup_cons] at hnodup
      obtain ⟨hmem, hnd⟩ := hnodup
      by_cases hn : n = name
      · subst hn
        rw [lookupPath, if_pos rfl]
        rcases ha : acceptEntry e with _ | url
        · rw [parse_mediamtx_config, ha,
            lookupCam_parse_not_mem tl n hmem]
          simp [ha]
        · rw [parse_mediamtx_config, ha, lookupCam, if_pos rfl]
          simp [ha]
      · rw [lookupPath, if_neg hn]
        rcases ha : acceptEntry e with _ | url
        · rw [parse_mediamtx_config, ha]
          exact ih hnd
        · rw [parse_mediamtx_config, ha, lookupCam, if_neg hn]
          exact ih hnd

/-- C10: with unique path names, a camera is registered for `name` iff
the entry is a mapping with `source` equal to `publisher` whose
`runOnInit` string contains an `rtsp://` URL; a registered camera's
source is the leftmost maximal regex match in `runOnInit`; and a
request for any unregistered name answers `notFound`. -/
theorem C10_registration_criterion (E : Frame → Except String Bytes)
    (paths : List (String × PathEntry)) (name : String)
    (hnodup : (paths.map Prod.fst).Nodup) :
    ((∃ cam, lookupCam (parse_mediamtx_config paths) name = some cam) ↔
      (∃ src run, lookupPath paths name = some (.mapping src run) ∧
        src = some "publisher" ∧ reSearchRtsp (run.getD []) ≠ none)) ∧
    (∀ cam, lookupCam (parse_mediamtx_config paths) name = some cam →
      ∃ src run i, lookupPath paths name = some (.mapping src run) ∧
        src = some "publisher" ∧
        matchAtPos (run.getD []) i ∧
        (∀ j, j < i → ¬ matchAtPos (run.getD []) j) ∧
        cam = freshCam (rtspLit ++
          (((run.getD []).drop (i + 7)).takeWhile isRtspBodyChar))) ∧
    (lookupCam (parse_mediamtx_config paths) name = none →
      (serve_snapshot E (parse_mediamtx_config paths) name).1
        = .notFound) := by
  refine ⟨?_, ?_, ?_⟩
  · rw [lookupCam_parse paths name hnodup]
    constructor
    · rintro ⟨cam, hcam⟩
      rcases hp : lookupPath paths name with _ | e
      · rw [hp] at hcam
        cases hcam
      · rw [hp] at hcam
        simp only [Option.some_bind] at hcam
        rcases e with ⟨src, run⟩ | _
        · rcases hs : acceptEntry (.mapping src run) with _ | url
          · rw [hs] at hcam
            cases hcam
          · rw [acceptEntry] at hs
            by_cases hpub : src = some "publisher"
            · rw [if_pos hpub] at hs
              exact ⟨src, run, rfl, hpub, by rw [hs]; simp⟩
            · rw [if_neg hpub] at hs
              cases hs
        · rcases hs : acceptEntry .nonMapping with _ | url
          · rw [hs] at hcam
            cases hcam
          · cases hs
    · rintro ⟨src, run, hp, hpub, hre⟩
      rcases hre2 : reSearchRtsp (run.getD []) with _ | url
      · exact absurd hre2 hre
      · refine ⟨freshCam url, ?_⟩
        rw [hp]
        simp [acceptEntry, hpub, hre2]
  · intro cam hcam
    rw [lookupCam_parse paths name hnodup] at hcam
    rcases hp : lookupPath paths name with _ | e
    · rw [hp] at hcam
      cases hcam
    · rw [hp] at hcam
      simp only [Option.some_bind] at hcam
      rcases e with ⟨src, run⟩ | _
      · rcases hs : acceptEntry (.mapping src run) with _ | url
        · rw [hs] at hcam
          cases hcam
        · rw [hs] at hcam
          simp only [Option.map_some'] at hcam
          rw [acceptEntry] at hs
          by_cases hpub : src = some "publisher"
          · rw [if_pos hpub] at hs
            obtain ⟨i, hm, hmin, hurl⟩ :=
              (reSearchRtsp_first_match (run.getD []) url).mp hs
            injection hcam with hcam
            refine ⟨src, run, i, rfl, hpub, hm, hmin, ?_⟩
            rw [← hcam, hurl]
          · rw [if_neg hpub] at hs
            cases hs
      · rcases hs : acceptEntry .nonMapping with _ | url
        · rw [hs] at hcam
          cases hcam
        · cases hs
  · intro hnone
    simp [serve_snapshot, hnone]

/-- Witness for C10 at the concrete configuration `pathsW`: `cam0` is
registered with the extracted RTSP URL, `skipme` is not. -/
theorem C10_registration_criterion_witness :
    (pathsW.map Prod.fst).Nodup ∧
    (∃ src run, lookupPath pathsW "cam0" = some (.mapping src run) ∧
      src = some "publisher" ∧ reSearchRtsp (run.getD []) ≠ none) ∧
    (serve_snapshot EcOk (parse_mediamtx_config pathsW) "skipme").1
      = .notFound :=
  ⟨by decide,
    ((C10_registration_criterion EcOk pathsW "cam0" (by decide)).1).mp
      ⟨freshCam urlW, by decide⟩,
    (C10_registration_criterion EcOk pathsW "skipme" (by decide)).2.2
      (by decide)⟩

end Snapfeeder
